import Mathlib

/-!
Shallow embedding of the protocol core of `bin/user/aurora.py` (weewx-aurora,
an Aurora PVI-6000 inverter driver): CRC16 checksum engine, frame assembly,
response decoding and the retrying command/response exchange of
`AuroraInverter`.

Byte strings are modelled as `List Nat` (one entry per byte; values produced
by the serial channel are 0..255).  Python exceptions are modelled by the
`PyError` type and fallible code returns `Except PyError _`.  The driver
raises and catches exception classes from the host weewx package; the
relevant facts of that (external) library are: `CRCError` is declared as a
subclass of `WeeWxIOError`, and `DataFormatError` (declared in this file's
source) is not.
-/

namespace Aurora

/-- The Python exceptions that the protocol core can raise.
`weeWxIOError` models `weewx.WeeWxIOError` (short write/read on the serial
channel, or the final give-up error of `send_cmd_with_crc`); `crcError`
models `weewx.CRCError`; `valueError` models the built-in `ValueError`
(raised by `int()` on a non-numeric string); `structError` models
`struct.error` (raised by `struct.pack`/`struct.unpack` on size or range
mismatch); `dataFormatError` models this driver's own `DataFormatError`;
`keyError` models the built-in `KeyError` from a failed dict lookup. -/
inductive PyError where
  | weeWxIOError (msg : String)
  | crcError
  | valueError
  | structError
  | dataFormatError
  | keyError
deriving DecidableEq

/-- `True` for exception classes caught by `except weewx.WeeWxIOError`.
In the weewx library `CRCError` is declared as `class CRCError(WeeWxIOError)`,
so a CRC failure raised by `strip_crc16` is caught by that clause. -/
def PyError.isWeeWxIOErr : PyError → Bool
  | .weeWxIOError _ => true
  | .crcError => true
  | _ => false

/-- Python's `~crc & 0xffff` for a non-negative `crc`: the bitwise complement
of the register, masked to 16 bits. -/
def compl16 (c : Nat) : Nat := 65535 - c % 65536

/-- One iteration of the inner loop of `AuroraInverter.crc16`:
`if ((crc & 0x0001) ^ (_byte & 0x0001)): crc = ((crc >> 1) ^ POLY) & 0xffff
else: crc >>= 1` with `POLY = 0x8408`. -/
def crcBitStep (crc bit : Nat) : Nat :=
  if (crc &&& 1) ^^^ (bit &&& 1) ≠ 0 then ((crc >>> 1) ^^^ 0x8408) &&& 0xffff
  else crc >>> 1

/-- The 8-iteration byte loop of `AuroraInverter.crc16`: the state is the
pair (crc register, remaining byte); the byte is shifted right once per
iteration (`_byte >>= 1`). -/
def crcByte (crc byte : Nat) : Nat :=
  ((List.range 8).foldl (fun p _ => (crcBitStep p.1 p.2, p.2 >>> 1)) (crc, byte)).1

/-- `AuroraInverter.crc16`: CCITT CRC16 of a byte string, seed `0xffff`,
with the source's special case returning `~0xffff & 0xffff` for empty
input, and `~crc & 0xffff` after folding all bytes otherwise. -/
def crc16 (buf : List Nat) : Nat :=
  if buf.length = 0 then compl16 0xffff
  else compl16 (buf.foldl crcByte 0xffff)

/-- `AuroraInverter.word2struct`: `struct.Struct('2B').pack(i & 0xff, i // 256)`,
i.e. the 16-bit word serialized low byte first, then high byte.  Every call
site passes a `crc16` result, which is below `2 ^ 16` (see `crc16_lt`), so the
`pack` range check always succeeds and the result is exactly these two bytes. -/
def word2struct (i : Nat) : List Nat := [i &&& 0xff, i / 256]

/-- `AuroraInverter.strip_crc16`: split the buffer into `buffer[:-2]` and
`buffer[-2:]`, recompute the CRC of the data part, and either return the
data or raise `weewx.CRCError`. -/
def strip_crc16 (buffer : List Nat) : Except PyError (List Nat) :=
  let data := buffer.take (buffer.length - 2)
  let crc_bytes := buffer.drop (buffer.length - 2)
  let crc := word2struct (crc16 data)
  if crc = crc_bytes then .ok data else .error .crcError

/-- `AuroraInverter.pad`: `PAD` is a string of `size` nulls; the guard raises
`DataFormatError` when `size > len(PAD)`; otherwise the result is
`buf + PAD[:(size - len(buf))]`, where the Python slice bound `size - len(buf)`
may be negative (a negative bound `e` keeps the first `size + e` characters). -/
def pad (buf : List Nat) (size : Nat) : Except PyError (List Nat) :=
  let PAD := List.replicate size 0
  if size > PAD.length then .error .dataFormatError
  else
    let e : Int := (size : Int) - (buf.length : Int)
    .ok (buf ++ (if 0 ≤ e then PAD.take e.toNat else PAD.take ((size : Int) + e).toNat))

/-! ### Basic bounds on the CRC register -/

theorem compl16_le (c : Nat) : compl16 c ≤ 65535 := by
  unfold compl16; omega

theorem crc16_lt (buf : List Nat) : crc16 buf < 65536 := by
  unfold crc16
  split <;> exact Nat.lt_succ_of_le (compl16_le _)

theorem compl16_inj {a b : Nat} (ha : a < 65536) (hb : b < 65536)
    (h : compl16 a = compl16 b) : a = b := by
  unfold compl16 at h
  rw [Nat.mod_eq_of_lt ha, Nat.mod_eq_of_lt hb] at h
  omega

/-! ### The round-trip law (C1) -/

/-- Appending the serialized CRC of `P` and then verifying-and-stripping
returns exactly `P`. -/
theorem strip_crc16_roundtrip (P : List Nat) :
    strip_crc16 (P ++ word2struct (crc16 P)) = .ok P := by
  unfold strip_crc16
  have hlen : (P ++ word2struct (crc16 P)).length = P.length + 2 := by
    simp [word2struct]
  rw [hlen]
  have h2 : P.length + 2 - 2 = P.length := by omega
  rw [h2, List.take_left, List.drop_left]
  simp

/-- C1: for every byte sequence `P`, `strip_crc16 (P ++ word2struct (crc16 P))`
succeeds and returns exactly `P`; no `ChecksumError` is raised. -/
theorem claim1_crc_roundtrip :
    ∀ P : List Nat, strip_crc16 (P ++ word2struct (crc16 P)) = .ok P :=
  strip_crc16_roundtrip

/-! ### A bit-stream view of the CRC register

`crcBitStep` consumes one bit of the input byte (its least significant bit);
viewing the 8-iteration byte loop as eight Boolean-input register updates
makes the error-detection argument for C7 tractable. -/

/-- The register update of `crcBitStep`, with the consumed input bit as a
`Bool`. -/
def stepB (r : Nat) (b : Bool) : Nat :=
  if (r.testBit 0 != b) then ((r >>> 1) ^^^ 0x8408) &&& 0xffff else r >>> 1

/-- The eight bits of a byte, least significant first — the order in which
the byte loop of `crc16` consumes them. -/
def byteBits (B : Nat) : List Bool :=
  [B.testBit 0, B.testBit 1, B.testBit 2, B.testBit 3,
   B.testBit 4, B.testBit 5, B.testBit 6, B.testBit 7]

/-- The full bit stream of a byte string, as consumed by `crc16`. -/
def msgBits (buf : List Nat) : List Bool := buf.flatMap byteBits

theorem crcBitStep_eq (c x : Nat) : crcBitStep c x = stepB c (x.testBit 0) := by
  unfold crcBitStep stepB
  have hc := Nat.and_one_is_mod c
  have hx := Nat.and_one_is_mod x
  rcases Nat.mod_two_eq_zero_or_one c with h1 | h1 <;>
    rcases Nat.mod_two_eq_zero_or_one x with h2 | h2 <;>
      simp [hc, hx, h1, h2, Nat.testBit_zero]

theorem testBit_zero_shiftRight (B n : Nat) : (B >>> n).testBit 0 = B.testBit n := by
  rw [Nat.testBit_shiftRight, Nat.add_zero]

theorem shiftRight_shiftRight (B m n : Nat) : (B >>> m) >>> n = B >>> (m + n) :=
  (Nat.shiftRight_add B m n).symm

theorem crcByte_eq (c B : Nat) : crcByte c B = (byteBits B).foldl stepB c := by
  show ((List.range 8).foldl (fun p _ => (crcBitStep p.1 p.2, p.2 >>> 1)) (c, B)).1 =
      (byteBits B).foldl stepB c
  have h8 : List.range 8 = [0, 1, 2, 3, 4, 5, 6, 7] := rfl
  rw [h8]
  simp only [List.foldl, byteBits]
  simp only [crcBitStep_eq, shiftRight_shiftRight, testBit_zero_shiftRight]

theorem foldl_crcByte_eq (buf : List Nat) :
    ∀ r : Nat, buf.foldl crcByte r = (msgBits buf).foldl stepB r := by
  induction buf with
  | nil => intro r; rfl
  | cons B rest ih =>
    intro r
    have hsplit : msgBits (B :: rest) = byteBits B ++ msgBits rest := by
      simp [msgBits, List.flatMap_cons]
    rw [List.foldl_cons, ih, hsplit, List.foldl_append, crcByte_eq]

/-! ### Injectivity of the register dynamics -/

theorem stepB_lt {r : Nat} (b : Bool) (_ : r < 65536) : stepB r b < 65536 := by
  unfold stepB
  split
  · exact Nat.lt_succ_of_le Nat.and_le_right
  · rw [Nat.shiftRight_one]; omega

/-- With the register below `2 ^ 16`, bit 15 of the updated register records
which branch `stepB` took: the XOR branch sets it, the plain shift clears it. -/
theorem stepB_testBit15 {r : Nat} (b : Bool) (hr : r < 65536) :
    (stepB r b).testBit 15 = (r.testBit 0 != b) := by
  have hsh : (r >>> 1).testBit 15 = false := by
    rw [Nat.testBit_shiftRight]
    exact Nat.testBit_lt_two_pow (by omega)
  unfold stepB
  split
  · next h =>
    rw [h]
    simp only [Nat.testBit_and, Nat.testBit_xor, hsh, Bool.false_bne]
    decide
  · next h =>
    simp only [Bool.not_eq_true] at h
    rw [h, hsh]

/-- Masking with `0xffff` is the identity below `2 ^ 16`. -/
theorem and_mask16 {x : Nat} (h : x < 65536) : x &&& 0xffff = x := by
  have h16 : (0xffff : Nat) = 2 ^ 16 - 1 := by norm_num
  apply Nat.eq_of_testBit_eq
  intro i
  rw [h16, Nat.testBit_and, Nat.testBit_two_pow_sub_one]
  by_cases hi : i < 16
  · simp [hi]
  · have hx : x.testBit i = false := by
      apply Nat.testBit_lt_two_pow
      calc x < 65536 := h
        _ = 2 ^ 16 := by norm_num
        _ ≤ 2 ^ i := Nat.pow_le_pow_right (by norm_num) (by omega)
    simp [hx, hi]

theorem stepB_inj {r₁ r₂ : Nat} (b : Bool) (h₁ : r₁ < 65536) (h₂ : r₂ < 65536)
    (h : stepB r₁ b = stepB r₂ b) : r₁ = r₂ := by
  have hbit : (r₁.testBit 0 != b) = (r₂.testBit 0 != b) := by
    rw [← stepB_testBit15 b h₁, ← stepB_testBit15 b h₂, h]
  have hbit0 : r₁.testBit 0 = r₂.testBit 0 := by
    cases b <;> cases hb : r₁.testBit 0 <;> cases hb2 : r₂.testBit 0 <;>
      simp [hb, hb2] at hbit ⊢
  have hmod : r₁ % 2 = r₂ % 2 := by
    have e1 := Nat.testBit_zero r₁
    have e2 := Nat.testBit_zero r₂
    rw [e1, e2] at hbit0
    rcases Nat.mod_two_eq_zero_or_one r₁ with h1 | h1 <;>
      rcases Nat.mod_two_eq_zero_or_one r₂ with h2 | h2 <;> simp [h1, h2] at hbit0 ⊢
  have hdiv : r₁ / 2 = r₂ / 2 := by
    unfold stepB at h
    rw [hbit0] at h
    split at h
    · have hx₁ : (r₁ >>> 1) ^^^ 0x8408 < 65536 := by
        have : r₁ >>> 1 < 65536 := by rw [Nat.shiftRight_one]; omega
        exact Nat.xor_lt_two_pow (n := 16) this (by norm_num)
      have hx₂ : (r₂ >>> 1) ^^^ 0x8408 < 65536 := by
        have : r₂ >>> 1 < 65536 := by rw [Nat.shiftRight_one]; omega
        exact Nat.xor_lt_two_pow (n := 16) this (by norm_num)
      rw [and_mask16 hx₁, and_mask16 hx₂] at h
      have := congrArg (· ^^^ 0x8408) h
      simp only [Nat.xor_cancel_right] at this
      rwa [Nat.shiftRight_one, Nat.shiftRight_one] at this
    · rwa [Nat.shiftRight_one, Nat.shiftRight_one] at h
  omega

/-- The same register fed two different bits takes the two different branches,
so the updated registers differ (they disagree on bit 15). -/
theorem stepB_bit_ne {r : Nat} {b₁ b₂ : Bool} (hr : r < 65536) (hb : b₁ ≠ b₂) :
    stepB r b₁ ≠ stepB r b₂ := by
  intro h
  have h15 := congrArg (Nat.testBit · 15) h
  simp only [stepB_testBit15 _ hr] at h15
  cases b₁ <;> cases b₂ <;> simp_all

theorem foldl_stepB_lt (bs : List Bool) : ∀ r : Nat, r < 65536 →
    bs.foldl stepB r < 65536 := by
  induction bs with
  | nil => intro r hr; exact hr
  | cons b rest ih => intro r hr; exact ih _ (stepB_lt b hr)

theorem foldl_stepB_inj (bs : List Bool) : ∀ r₁ r₂ : Nat, r₁ < 65536 → r₂ < 65536 →
    r₁ ≠ r₂ → bs.foldl stepB r₁ ≠ bs.foldl stepB r₂ := by
  induction bs with
  | nil => intro r₁ r₂ _ _ hne; exact hne
  | cons b rest ih =>
    intro r₁ r₂ h₁ h₂ hne
    exact ih _ _ (stepB_lt b h₁) (stepB_lt b h₂)
      (fun h => hne (stepB_inj b h₁ h₂ h))

/-- Negating one bit anywhere in the consumed bit stream changes the final
register value. -/
theorem foldl_stepB_flip (pre suf : List Bool) (b : Bool) {r : Nat}
    (hr : r < 65536) :
    (pre ++ b :: suf).foldl stepB r ≠ (pre ++ (!b) :: suf).foldl stepB r := by
  rw [List.foldl_append, List.foldl_append, List.foldl_cons, List.foldl_cons]
  have hm : pre.foldl stepB r < 65536 := foldl_stepB_lt pre r hr
  exact foldl_stepB_inj suf _ _ (stepB_lt _ hm) (stepB_lt _ hm)
    (stepB_bit_ne hm (Bool.not_ne_self b).symm)

/-- XOR-ing a byte with `2 ^ j` (for `j < 8`) negates exactly position `j` of
its bit list. -/
theorem byteBits_flip {B j : Nat} (hj : j < 8) :
    ∃ p s : List Bool,
      byteBits B = p ++ B.testBit j :: s ∧
      byteBits (B ^^^ 2 ^ j) = p ++ (!B.testBit j) :: s := by
  have hx : ∀ k : Nat, (B ^^^ 2 ^ j).testBit k = (B.testBit k ^^ decide (j = k)) := by
    intro k
    rw [Nat.testBit_xor, Nat.testBit_two_pow]
  interval_cases j
  · exact ⟨[], [B.testBit 1, B.testBit 2, B.testBit 3, B.testBit 4, B.testBit 5,
      B.testBit 6, B.testBit 7], rfl, by simp only [byteBits, hx]; simp⟩
  · exact ⟨[B.testBit 0], [B.testBit 2, B.testBit 3, B.testBit 4, B.testBit 5,
      B.testBit 6, B.testBit 7], rfl, by simp only [byteBits, hx]; simp⟩
  · exact ⟨[B.testBit 0, B.testBit 1], [B.testBit 3, B.testBit 4, B.testBit 5,
      B.testBit 6, B.testBit 7], rfl, by simp only [byteBits, hx]; simp⟩
  · exact ⟨[B.testBit 0, B.testBit 1, B.testBit 2], [B.testBit 4, B.testBit 5,
      B.testBit 6, B.testBit 7], rfl, by simp only [byteBits, hx]; simp⟩
  · exact ⟨[B.testBit 0, B.testBit 1, B.testBit 2, B.testBit 3], [B.testBit 5,
      B.testBit 6, B.testBit 7], rfl, by simp only [byteBits, hx]; simp⟩
  · exact ⟨[B.testBit 0, B.testBit 1, B.testBit 2, B.testBit 3, B.testBit 4],
      [B.testBit 6, B.testBit 7], rfl, by simp only [byteBits, hx]; simp⟩
  · exact ⟨[B.testBit 0, B.testBit 1, B.testBit 2, B.testBit 3, B.testBit 4,
      B.testBit 5], [B.testBit 7], rfl, by simp only [byteBits, hx]; simp⟩
  · exact ⟨[B.testBit 0, B.testBit 1, B.testBit 2, B.testBit 3, B.testBit 4,
      B.testBit 5, B.testBit 6], [], rfl, by simp only [byteBits, hx]; simp⟩

/-- Decompose a list around position `i`, compatibly with `List.set`. -/
theorem list_set_decomp {α : Type} (x : α) :
    ∀ (l : List α) (i : Nat) (d : α), i < l.length →
      ∃ (pre : List α) (c : α) (suf : List α),
        l = pre ++ c :: suf ∧ l.set i x = pre ++ x :: suf ∧ c = l.getD i d := by
  intro l
  induction l with
  | nil => intro i d h; simp at h
  | cons a rest ih =>
    intro i d h
    cases i with
    | zero => exact ⟨[], a, rest, rfl, rfl, rfl⟩
    | succ n =>
      have hn : n < rest.length := by simpa using h
      obtain ⟨pre, c, suf, h1, h2, h3⟩ := ih n d hn
      refine ⟨a :: pre, c, suf, ?_, ?_, ?_⟩
      · simpa using h1
      · simpa using h2
      · simpa using h3

/-- Flipping any single bit of any byte of the input changes the CRC. -/
theorem crc16_flip_ne (buf : List Nat) (i j : Nat) (hi : i < buf.length)
    (hj : j < 8) :
    crc16 (buf.set i (buf.getD i 0 ^^^ 2 ^ j)) ≠ crc16 buf := by
  obtain ⟨pre, c, suf, hL, hS, hc⟩ :=
    list_set_decomp (buf.getD i 0 ^^^ 2 ^ j) buf i 0 hi
  rw [← hc] at hS ⊢
  obtain ⟨p, s, hb, hbx⟩ := byteBits_flip (B := c) hj
  intro h
  have hne : buf.length ≠ 0 := by omega
  have hcrc1 : crc16 (buf.set i (c ^^^ 2 ^ j)) =
      compl16 ((buf.set i (c ^^^ 2 ^ j)).foldl crcByte 65535) := by
    unfold crc16
    rw [if_neg (by rw [List.length_set]; exact hne)]
  have hcrc2 : crc16 buf = compl16 (buf.foldl crcByte 65535) := by
    unfold crc16
    rw [if_neg hne]
  rw [hcrc1, hcrc2] at h
  have hfold := compl16_inj
    (by rw [foldl_crcByte_eq]; exact foldl_stepB_lt _ _ (by norm_num))
    (by rw [foldl_crcByte_eq]; exact foldl_stepB_lt _ _ (by norm_num)) h
  rw [foldl_crcByte_eq, foldl_crcByte_eq, hS] at hfold
  rw [hL] at hfold
  have hmsg1 : msgBits (pre ++ (c ^^^ 2 ^ j) :: suf) =
      (msgBits pre ++ p) ++ (!c.testBit j) :: (s ++ msgBits suf) := by
    simp only [msgBits, List.flatMap_append, List.flatMap_cons, hbx]
    simp [List.append_assoc]
  have hmsg2 : msgBits (pre ++ c :: suf) =
      (msgBits pre ++ p) ++ c.testBit j :: (s ++ msgBits suf) := by
    simp only [msgBits, List.flatMap_append, List.flatMap_cons, hb]
    simp [List.append_assoc]
  rw [hmsg1, hmsg2] at hfold
  exact foldl_stepB_flip (msgBits pre ++ p) (s ++ msgBits suf)
    (c.testBit j) (by norm_num) hfold.symm

/-! ### The reference (spec-worded) CRC definition, and C6 -/

/-- One iteration of the reference CRC description: "if (register LSB) XOR
(byte LSB) is set, `register = (register >> 1) XOR polynomial`, else
`register = register >> 1`" — with no intermediate 16-bit mask. -/
def specBitStep (crc bit : Nat) : Nat :=
  if (crc &&& 1) ^^^ (bit &&& 1) ≠ 0 then (crc >>> 1) ^^^ 0x8408
  else crc >>> 1

/-- The reference byte loop: 8 iterations, the byte shifting right once per
iteration. -/
def specByte (crc byte : Nat) : Nat :=
  ((List.range 8).foldl (fun p _ => (specBitStep p.1 p.2, p.2 >>> 1)) (crc, byte)).1

/-- The reference CRC-CCITT-reflected definition, following the spec's words:
seed register `0xffff`, polynomial `0x8408`, final result the bitwise
complement of the register masked to 16 bits, with no special case for the
empty input. -/
def crc16Spec (buf : List Nat) : Nat :=
  compl16 (buf.foldl specByte 0xffff)

theorem specBitStep_eq {crc : Nat} (bit : Nat) (h : crc < 65536) :
    specBitStep crc bit = crcBitStep crc bit := by
  unfold specBitStep crcBitStep
  split
  · have hx : (crc >>> 1) ^^^ 0x8408 < 65536 := by
      have : crc >>> 1 < 65536 := by rw [Nat.shiftRight_one]; omega
      exact Nat.xor_lt_two_pow (n := 16) this (by norm_num)
    rw [and_mask16 hx]
  · rfl

theorem crcBitStep_lt {crc : Nat} (bit : Nat) (h : crc < 65536) :
    crcBitStep crc bit < 65536 := by
  rw [crcBitStep_eq]
  exact stepB_lt _ h

/-- A fold over `List.range n` that ignores the loop index is an `n`-fold
iteration. -/
theorem foldl_ignore_iterate {α : Type} (f : α → α) :
    ∀ (n : Nat) (a : α), (List.range n).foldl (fun x _ => f x) a = f^[n] a := by
  intro n
  induction n with
  | zero => intro a; rfl
  | succ m ih =>
    intro a
    rw [List.range_succ, List.foldl_append, ih]
    simp [Function.iterate_succ_apply']

theorem specByte_eq {crc : Nat} (byte : Nat) (h : crc < 65536) :
    specByte crc byte = crcByte crc byte := by
  unfold specByte crcByte
  rw [foldl_ignore_iterate (fun p : Nat × Nat => (specBitStep p.1 p.2, p.2 >>> 1)),
    foldl_ignore_iterate (fun p : Nat × Nat => (crcBitStep p.1 p.2, p.2 >>> 1))]
  have key : ∀ (n : Nat) (p : Nat × Nat), p.1 < 65536 →
      (fun p : Nat × Nat => (specBitStep p.1 p.2, p.2 >>> 1))^[n] p =
      (fun p : Nat × Nat => (crcBitStep p.1 p.2, p.2 >>> 1))^[n] p := by
    intro n
    induction n with
    | zero => intro p _; rfl
    | succ m ih =>
      intro p hp
      rw [Function.iterate_succ_apply, Function.iterate_succ_apply]
      have hstep : ((specBitStep p.1 p.2, p.2 >>> 1) : Nat × Nat) =
          (crcBitStep p.1 p.2, p.2 >>> 1) := by
        rw [specBitStep_eq _ hp]
      rw [hstep]
      exact ih _ (crcBitStep_lt _ hp)
  rw [key 8 (crc, byte) h]

theorem crcByte_lt {crc : Nat} (byte : Nat) (h : crc < 65536) :
    crcByte crc byte < 65536 := by
  rw [crcByte_eq]
  exact foldl_stepB_lt _ _ h

theorem foldl_specByte_eq (buf : List Nat) :
    ∀ crc : Nat, crc < 65536 → buf.foldl specByte crc = buf.foldl crcByte crc := by
  induction buf with
  | nil => intro crc _; rw [List.foldl_nil, List.foldl_nil]
  | cons B rest ih =>
    intro crc h
    calc List.foldl specByte crc (B :: rest)
        = List.foldl specByte (specByte crc B) rest := List.foldl_cons ..
      _ = List.foldl specByte (crcByte crc B) rest := by rw [specByte_eq B h]
      _ = List.foldl crcByte (crcByte crc B) rest := ih _ (crcByte_lt B h)
      _ = List.foldl crcByte crc (B :: rest) := (List.foldl_cons ..).symm

/-- The implementation `crc16` computes exactly the reference definition. -/
theorem crc16_eq_spec (buf : List Nat) : crc16 buf = crc16Spec buf := by
  unfold crc16 crc16Spec
  split
  · next h =>
    rw [List.length_eq_zero.mp h, List.foldl_nil]
  · rw [foldl_specByte_eq buf 0xffff (by norm_num)]

/-- C6: `crc16` equals the reference CRC-CCITT-reflected definition (seed
`0xffff`, polynomial `0x8408`, eight LSB-first iterations per byte, final
complement masked to 16 bits), and `crc16 [] = 0x0000`. -/
theorem claim6_crc16_reference :
    (∀ buf : List Nat, crc16 buf = crc16Spec buf) ∧ crc16 [] = 0 :=
  ⟨crc16_eq_spec, rfl⟩

/-! ### Single-bit error detection (C7) -/

/-- Masking with `0xff` is taking the low byte. -/
theorem and_mask8 (x : Nat) : x &&& 0xff = x % 256 := by
  have h8 : (0xff : Nat) = 2 ^ 8 - 1 := by norm_num
  have h256 : (256 : Nat) = 2 ^ 8 := by norm_num
  apply Nat.eq_of_testBit_eq
  intro i
  rw [h8, h256, Nat.testBit_and, Nat.testBit_two_pow_sub_one,
    Nat.testBit_mod_two_pow, Bool.and_comm]

theorem word2struct_inj {a b : Nat} (_ha : a < 65536) (_hb : b < 65536)
    (h : word2struct a = word2struct b) : a = b := by
  unfold word2struct at h
  rw [List.cons.injEq, List.cons.injEq] at h
  obtain ⟨h1, h2, -⟩ := h
  rw [and_mask8, and_mask8] at h1
  omega

/-- Flip bit `j` of the byte at position `i` of a byte string (Python-level:
replace `l[i]` by `l[i] ^ (1 << j)`). -/
def flipBit (l : List Nat) (i j : Nat) : List Nat :=
  l.set i (l.getD i 0 ^^^ 2 ^ j)

/-- C7: flipping any single bit of the validly-checksummed frame
`P ++ word2struct (crc16 P)` makes `strip_crc16` fail with `CRCError`. -/
theorem claim7_single_bit_error (P : List Nat) (i j : Nat)
    (hi : i < (P ++ word2struct (crc16 P)).length) (hj : j < 8) :
    strip_crc16 (flipBit (P ++ word2struct (crc16 P)) i j) = .error .crcError := by
  have hw : (word2struct (crc16 P)).length = 2 := rfl
  have hlen : (P ++ word2struct (crc16 P)).length = P.length + 2 := by
    rw [List.length_append, hw]
  by_cases hiP : i < P.length
  · -- the flip lands in the payload: the recomputed CRC changes
    have hget : (P ++ word2struct (crc16 P)).getD i 0 = P.getD i 0 := by
      rw [List.getD_eq_getElem _ _ hi, List.getD_eq_getElem _ _ hiP,
        List.getElem_append_left hiP]
    have hset : flipBit (P ++ word2struct (crc16 P)) i j =
        (P.set i (P.getD i 0 ^^^ 2 ^ j)) ++ word2struct (crc16 P) := by
      rw [flipBit, hget, List.set_append, if_pos hiP]
    rw [hset]
    unfold strip_crc16
    have hlen2 : ((P.set i (P.getD i 0 ^^^ 2 ^ j)) ++ word2struct (crc16 P)).length
        = P.length + 2 := by
      rw [List.length_append, List.length_set, hw]
    rw [hlen2]
    have h2 : P.length + 2 - 2 = P.length := by omega
    have hsetlen : (P.set i (P.getD i 0 ^^^ 2 ^ j)).length = P.length :=
      List.length_set ..
    rw [h2, ← hsetlen, List.take_left, List.drop_left]
    have hne : word2struct (crc16 (P.set i (P.getD i 0 ^^^ 2 ^ j))) ≠
        word2struct (crc16 P) := by
      intro hcontra
      exact crc16_flip_ne P i j hiP hj
        (word2struct_inj (crc16_lt _) (crc16_lt _) hcontra)
    rw [if_neg hne]
  · -- the flip lands in the two CRC bytes: the received CRC changes
    have hk : i - P.length < 2 := by omega
    have hget : (P ++ word2struct (crc16 P)).getD i 0 =
        (word2struct (crc16 P)).getD (i - P.length) 0 := by
      rw [List.getD_eq_getElem _ _ hi, List.getD_eq_getElem _ _ (hw ▸ hk),
        List.getElem_append_right (by omega)]
    have hset : flipBit (P ++ word2struct (crc16 P)) i j =
        P ++ ((word2struct (crc16 P)).set (i - P.length)
          ((word2struct (crc16 P)).getD (i - P.length) 0 ^^^ 2 ^ j)) := by
      rw [flipBit, hget, List.set_append, if_neg hiP]
    rw [hset]
    unfold strip_crc16
    have hlen2 : (P ++ ((word2struct (crc16 P)).set (i - P.length)
        ((word2struct (crc16 P)).getD (i - P.length) 0 ^^^ 2 ^ j))).length
        = P.length + 2 := by
      rw [List.length_append, List.length_set, hw]
    rw [hlen2]
    have h2 : P.length + 2 - 2 = P.length := by omega
    rw [h2, List.take_left, List.drop_left]
    have hne : word2struct (crc16 P) ≠
        (word2struct (crc16 P)).set (i - P.length)
          ((word2struct (crc16 P)).getD (i - P.length) 0 ^^^ 2 ^ j) := by
      intro hcontra
      have hx : ((word2struct (crc16 P)).set (i - P.length)
          ((word2struct (crc16 P)).getD (i - P.length) 0 ^^^ 2 ^ j)).getD
            (i - P.length) 0 =
          (word2struct (crc16 P)).getD (i - P.length) 0 ^^^ 2 ^ j := by
        rw [List.getD_eq_getElem _ _ (by rw [List.length_set, hw]; exact hk),
          List.getElem_set_self]
      rw [← hcontra] at hx
      -- hx now says v = v ^^^ 2 ^ j for the received CRC byte v
      set v := (word2struct (crc16 P)).getD (i - P.length) 0 with hv
      have h2j : v ^^^ (v ^^^ 2 ^ j) = 2 ^ j := by
        rw [← Nat.xor_assoc, Nat.xor_self, Nat.zero_xor]
      rw [← hx, Nat.xor_self] at h2j
      have hpos : 0 < 2 ^ j := Nat.pos_pow_of_pos j (by norm_num)
      omega
    rw [if_neg hne]

theorem claim7_witness :
    strip_crc16 (flipBit ([0, 0, 0, 0, 1, 0] ++
      word2struct (crc16 [0, 0, 0, 0, 1, 0])) 2 5) = .error .crcError :=
  claim7_single_bit_error [0, 0, 0, 0, 1, 0] 2 5 (by simp [word2struct])
    (by norm_num)

/-! ### Decoded Python values and the ResponseTuple -/

/-- The Python values a decoder can place in the `data` slot of a
`ResponseTuple`: an `int`, a `str` (kept as its bytes), a `float` (kept as
the 32 raw bits of the big-endian IEEE-754 word that `struct.unpack('!f', …)`
reads), or a tuple of `int`s. -/
inductive PyValue where
  | int (i : Int)
  | str (s : List Nat)
  | floatBits (bits : Nat)
  | tup (l : List Int)
deriving DecidableEq

/-- The `ResponseTuple` class: `(transmission_state, global_state, data)`,
each position possibly Python `None`. -/
structure ResponseTuple where
  transmission_state : Option Nat
  global_state : Option Nat
  data : Option PyValue
deriving DecidableEq

/-- The all-`None` ResponseTuple returned when a caught exception aborts
decoding. -/
def allAbsent : ResponseTuple := ⟨none, none, none⟩

/-- A decoder's Python return value: `_dec_state` falls off the end of the
function and returns `None`; every other decoder returns a `ResponseTuple`. -/
abbrev DecRet := Option ResponseTuple

/-- Python 2 `int(s)` on a string: strip leading and trailing whitespace,
allow one optional sign, then require at least one decimal digit and nothing
else; otherwise raise `ValueError`. -/
def pyInt (s : List Nat) : Except PyError Int :=
  let isSpace : Nat → Bool := fun c =>
    c = 32 || c = 9 || c = 10 || c = 13 || c = 11 || c = 12
  let isDigit : Nat → Bool := fun c => 48 ≤ c && c ≤ 57
  let digitsVal : List Nat → Int := fun l =>
    l.foldl (fun a c => a * 10 + ((c : Int) - 48)) 0
  let t := ((s.dropWhile isSpace).reverse.dropWhile isSpace).reverse
  match t with
  | [] => .error .valueError
  | c :: rest =>
    if c = 43 then
      if !rest.isEmpty && rest.all isDigit then .ok (digitsVal rest)
      else .error .valueError
    else if c = 45 then
      if !rest.isEmpty && rest.all isDigit then .ok (-(digitsVal rest))
      else .error .valueError
    else if (c :: rest).all isDigit then .ok (digitsVal (c :: rest))
    else .error .valueError

/-! ### The seven decoders

Each decoder wraps its body in `try: … except (IndexError, TypeError): return
ResponseTuple(None, None, None)`.  `IndexError` (from `v[k]` on a too-short
string) and `TypeError` (from `None + int` in `_dec_ts`) are caught and give
the all-absent tuple; `ValueError` (from `int()`) and `struct.error` (from
`struct.unpack`) are not in the except clause and propagate, modelled as
`.error`. -/

/-- `AuroraInverter._dec_state`: its body is `pass`, so it returns Python
`None` for every input. -/
def _dec_state (_v : List Nat) : Except PyError DecRet := .ok none

/-- `AuroraInverter._dec_ascii`: `ResponseTuple(None, None, str(v[0:6]))`;
the slice never raises. -/
def _dec_ascii (v : List Nat) : Except PyError DecRet :=
  .ok (some ⟨none, none, some (.str (v.take 6))⟩)

/-- `AuroraInverter._dec_ascii_and_state`:
`ResponseTuple(ord(v[0]), ord(v[1]), str(v[2:4]))`; `v[0]`/`v[1]` raise
`IndexError` (caught) when the payload has fewer than 2 bytes. -/
def _dec_ascii_and_state (v : List Nat) : Except PyError DecRet :=
  match v with
  | b0 :: b1 :: rest => .ok (some ⟨some b0, some b1, some (.str (rest.take 2))⟩)
  | _ => .ok (some allAbsent)

/-- `AuroraInverter._dec_float`:
`ResponseTuple(ord(v[0]), ord(v[1]), struct.unpack('!f', v[2:])[0])`;
`v[0]`/`v[1]` raise `IndexError` (caught) on fewer than 2 bytes, and
`struct.unpack('!f', …)` raises `struct.error` (not caught) unless `v[2:]`
is exactly 4 bytes. -/
def _dec_float (v : List Nat) : Except PyError DecRet :=
  match v with
  | b0 :: b1 :: rest =>
    if rest.length = 4 then
      .ok (some ⟨some b0, some b1,
        some (.floatBits (rest.getD 0 0 * 16777216 + rest.getD 1 0 * 65536 +
          rest.getD 2 0 * 256 + rest.getD 3 0))⟩)
    else .error .structError
  | _ => .ok (some allAbsent)

/-- `AuroraInverter._dec_week_year`:
`ResponseTuple(ord(v[0]), ord(v[1]), (int(v[2:4]), int(v[4:6])))`;
`int()` raises `ValueError` (not caught) on a non-numeric slice. -/
def _dec_week_year (v : List Nat) : Except PyError DecRet :=
  match v with
  | b0 :: b1 :: rest =>
    match pyInt (rest.take 2) with
    | .error e => .error e
    | .ok week =>
      match pyInt ((rest.drop 2).take 2) with
      | .error e => .error e
      | .ok year => .ok (some ⟨some b0, some b1, some (.tup [week, year])⟩)
  | _ => .ok (some allAbsent)

/-- `AuroraInverter._dec_int`:
`_int = ord(v[2])*2**24 + ord(v[3])*2**16 + ord(v[4])*2**8 + ord(v[5])` then
`ResponseTuple(ord(v[0]), ord(v[1]), _int)`; every `IndexError` on a short
payload is caught. -/
def _dec_int (v : List Nat) : Except PyError DecRet :=
  match v with
  | b0 :: b1 :: b2 :: b3 :: b4 :: b5 :: _ =>
    .ok (some ⟨some b0, some b1,
      some (.int ((b2 * 2 ^ 24 + b3 * 2 ^ 16 + b4 * 2 ^ 8 + b5 : Nat) : Int))⟩)
  | _ => .ok (some allAbsent)

/-- `AuroraInverter._dec_ts`:
`ResponseTuple(ord(v[0]), ord(v[1]), AuroraInverter._dec_int(v).data + 946648800)`;
on a short payload either `ord` raises `IndexError` or `_dec_int` returns a
`None` data field and `None + 946648800` raises `TypeError` — both caught. -/
def _dec_ts (v : List Nat) : Except PyError DecRet :=
  match v with
  | b0 :: b1 :: b2 :: b3 :: b4 :: b5 :: _ =>
    .ok (some ⟨some b0, some b1,
      some (.int (((b2 * 2 ^ 24 + b3 * 2 ^ 16 + b4 * 2 ^ 8 + b5 : Nat) : Int)
        + 946648800))⟩)
  | _ => .ok (some allAbsent)

/-- Sequential `int(a)` over the characters of `v[2:6]` (the list
comprehension of `_dec_alarms`). -/
def mapPyInt : List Nat → Except PyError (List Int)
  | [] => .ok []
  | c :: rest =>
    match pyInt [c] with
    | .error e => .error e
    | .ok i =>
      match mapPyInt rest with
      | .error e => .error e
      | .ok l => .ok (i :: l)

/-- `AuroraInverter._dec_alarms`:
`_alarms = tuple([int(a) for a in v[2:6]])` (evaluated first — `int()` on a
non-digit character raises an uncaught `ValueError`), then
`ResponseTuple(ord(v[0]), ord(v[1]), _alarms)`. -/
def _dec_alarms (v : List Nat) : Except PyError DecRet :=
  match mapPyInt ((v.drop 2).take 4) with
  | .error e => .error e
  | .ok vals =>
    match v with
    | b0 :: b1 :: _ => .ok (some ⟨some b0, some b1, some (.tup vals)⟩)
    | _ => .ok (some allAbsent)

/-- The seven decode shapes of the command table, as a closed enumeration. -/
inductive Decoder where
  | state
  | ascii
  | asciiAndState
  | float
  | weekYear
  | ts
  | int
  | alarms
deriving DecidableEq

/-- Dispatch a decode shape to its decoder. -/
def decode : Decoder → List Nat → Except PyError DecRet
  | .state, v => _dec_state v
  | .ascii, v => _dec_ascii v
  | .asciiAndState, v => _dec_ascii_and_state v
  | .float, v => _dec_float v
  | .weekYear, v => _dec_week_year v
  | .ts, v => _dec_ts v
  | .int, v => _dec_int v
  | .alarms, v => _dec_alarms v

/-! ### The command registry -/

/-- One entry of `AuroraInverter.commands`: command code, sub-command code and
decode function. -/
structure CmdSpec where
  cmd : Nat
  sub : Nat
  fn : Decoder
deriving DecidableEq

/-- `AuroraInverter.commands`: the fixed reading-name → command table
(`self.commands` in `__init__`).  A name absent from the table makes
`self.commands[reading]` raise `KeyError`. -/
def commands : String → Option CmdSpec
  | "state" => some ⟨50, 0, .state⟩
  | "partNumber" => some ⟨52, 0, .ascii⟩
  | "version" => some ⟨58, 0, .asciiAndState⟩
  | "gridV" => some ⟨59, 1, .float⟩
  | "gridC" => some ⟨59, 2, .float⟩
  | "gridP" => some ⟨59, 3, .float⟩
  | "frequency" => some ⟨59, 4, .float⟩
  | "bulkV" => some ⟨59, 5, .float⟩
  | "leakDcC" => some ⟨59, 6, .float⟩
  | "leakC" => some ⟨59, 7, .float⟩
  | "str1P" => some ⟨59, 8, .float⟩
  | "str2P" => some ⟨59, 9, .float⟩
  | "inverterT" => some ⟨59, 21, .float⟩
  | "boosterT" => some ⟨59, 22, .float⟩
  | "str1V" => some ⟨59, 23, .float⟩
  | "str1C" => some ⟨59, 25, .float⟩
  | "str2V" => some ⟨59, 26, .float⟩
  | "str2C" => some ⟨59, 27, .float⟩
  | "gridDcV" => some ⟨59, 28, .float⟩
  | "gridDcFreq" => some ⟨59, 29, .float⟩
  | "isoR" => some ⟨59, 30, .float⟩
  | "bulkDcV" => some ⟨59, 31, .float⟩
  | "gridAvV" => some ⟨59, 32, .float⟩
  | "bulkMidV" => some ⟨59, 33, .float⟩
  | "gridNV" => some ⟨59, 34, .float⟩
  | "dayPeakP" => some ⟨59, 35, .float⟩
  | "peakP" => some ⟨59, 36, .float⟩
  | "gridNPhV" => some ⟨59, 38, .float⟩
  | "serialNumber" => some ⟨63, 0, .ascii⟩
  | "manufactureDate" => some ⟨65, 0, .weekYear⟩
  | "timeDate" => some ⟨70, 0, .ts⟩
  | "firmwareRelease" => some ⟨72, 0, .asciiAndState⟩
  | "dayEnergy" => some ⟨78, 0, .int⟩
  | "weekEnergy" => some ⟨78, 1, .int⟩
  | "monthEnergy" => some ⟨78, 3, .int⟩
  | "yearEnergy" => some ⟨78, 4, .int⟩
  | "totalEnergy" => some ⟨78, 5, .int⟩
  | "partialEnergy" => some ⟨78, 6, .int⟩
  | "lastAlarms" => some ⟨86, 0, .alarms⟩
  | _ => none

/-! ### Frame assembly and the retrying exchange -/

/-- `struct.Struct('4B').pack(address, cmd_num, sub_cmd, globall)`: four bytes,
each argument required to be in 0..255 (otherwise `struct.error`). -/
def pack4B (address cmd sub globall : Nat) : Except PyError (List Nat) :=
  if address ≤ 255 ∧ cmd ≤ 255 ∧ sub ≤ 255 ∧ globall ≤ 255 then
    .ok [address, cmd, sub, globall]
  else .error .structError

/-- The 10 bytes `send_cmd_with_crc` writes on each attempt:
`_b_padded + self.word2struct(self.crc16(_b_padded))` for
`_b_padded = self.pad(struct.pack('4B', address, cmd, sub, globall), 8)`. -/
def data_with_crc (reading : String) (globall address : Nat) :
    Except PyError (List Nat) :=
  match commands reading with
  | none => .error .keyError
  | some spec =>
    match pack4B address spec.cmd spec.sub globall with
    | .error e => .error e
    | .ok b =>
      match pad b 8 with
      | .error e => .error e
      | .ok padded => .ok (padded ++ word2struct (crc16 padded))

/-- Padding the 4 command bytes to the fixed 8-byte frame always appends
exactly four nulls. -/
theorem pad8 (a c su g : Nat) : pad [a, c, su, g] 8 = .ok [a, c, su, g, 0, 0, 0, 0] := rfl

/-- What the serial channel does on one attempt of the exchange:
the `write` raises `WeeWxIOError` (short write / serial fault), the `read(8)`
raises `WeeWxIOError` (short read), or the read returns a response frame. -/
inductive AttemptResult where
  | writeFail
  | readFail
  | readOk (resp : List Nat)

/-- The message of the `WeeWxIOError` raised after the retry loop exhausts
its attempts — a fixed string naming neither the reading nor the attempt
count. -/
def unableMsg : String := "Unable to send or receive data to/from the inverter"

/-- The body of the `for count in xrange(max_tries)` loop of
`send_cmd_with_crc`, with the channel abstracted as a map from attempt index
to `AttemptResult`.  Per attempt: write, sleep, `read_with_crc` (read then
`strip_crc16`), then the registry decoder — all inside
`try: … except weewx.WeeWxIOError: pass`, so exactly the errors satisfying
`PyError.isWeeWxIOErr` (including `CRCError`, a `WeeWxIOError` subclass) are
swallowed and retried; any other exception propagates at once.  After the
loop: `raise weewx.WeeWxIOError(unableMsg)`.  Returns the outcome paired
with the number of attempts performed. -/
def send_attempts (dec : Decoder) (tr : Nat → AttemptResult) (start : Nat) :
    Nat → (Except PyError DecRet) × Nat
  | 0 => (.error (.weeWxIOError unableMsg), 0)
  | n + 1 =>
    match tr start with
    | .writeFail =>
      let r := send_attempts dec tr (start + 1) n
      (r.1, r.2 + 1)
    | .readFail =>
      let r := send_attempts dec tr (start + 1) n
      (r.1, r.2 + 1)
    | .readOk resp =>
      match strip_crc16 resp with
      | .error e =>
        if e.isWeeWxIOErr then
          let r := send_attempts dec tr (start + 1) n
          (r.1, r.2 + 1)
        else (.error e, 1)
      | .ok payload =>
        match decode dec payload with
        | .error e =>
          if e.isWeeWxIOErr then
            let r := send_attempts dec tr (start + 1) n
            (r.1, r.2 + 1)
          else (.error e, 1)
        | .ok t => (.ok t, 1)

/-- `AuroraInverter.send_cmd_with_crc(reading, globall, address, max_tries)`:
resolve the reading in `commands` (`KeyError` if absent, before any serial
traffic), assemble `data_with_crc`, then run the retry loop.  The bytes
written on every attempt are `data_with_crc reading globall address`; the
abstract channel `tr` supplies each attempt's outcome.  The result is paired
with the number of attempts performed (0 when the command never reaches the
loop). -/
def send_cmd_with_crc (reading : String) (globall address max_tries : Nat)
    (tr : Nat → AttemptResult) : (Except PyError DecRet) × Nat :=
  match commands reading with
  | none => (.error .keyError, 0)
  | some spec =>
    match pack4B address spec.cmd spec.sub globall with
    | .error e => (.error e, 0)
    | .ok b =>
      match pad b 8 with
      | .error e => (.error e, 0)
      | .ok _padded => send_attempts spec.fn tr 0 max_tries

/-! ### Retry-loop lemmas -/

/-- An attempt whose channel operation itself raises `WeeWxIOError` (short
write or short read). -/
def IOFail (a : AttemptResult) : Prop :=
  a = AttemptResult.writeFail ∨ a = AttemptResult.readFail

theorem send_attempts_all_fail (dec : Decoder) (tr : Nat → AttemptResult) :
    ∀ (n start : Nat), (∀ i, i < n → IOFail (tr (start + i))) →
      send_attempts dec tr start n = (.error (.weeWxIOError unableMsg), n) := by
  intro n
  induction n with
  | zero => intro start _; rfl
  | succ m ih =>
    intro start h
    have h0 := h 0 (by omega)
    rw [Nat.add_zero] at h0
    have hrec := ih (start + 1) (fun i hi => by
      have hx := h (i + 1) (by omega)
      have he : start + 1 + i = start + (i + 1) := by omega
      rw [he]
      exact hx)
    rcases h0 with h0 | h0 <;> simp [send_attempts, h0, hrec]

theorem send_attempts_success (dec : Decoder) (tr : Nat → AttemptResult)
    (resp payload : List Nat) (t : DecRet) :
    ∀ (k n start : Nat), k < n → (∀ i, i < k → IOFail (tr (start + i))) →
      tr (start + k) = .readOk resp → strip_crc16 resp = .ok payload →
      decode dec payload = .ok t →
      send_attempts dec tr start n = (.ok t, k + 1) := by
  intro k
  induction k with
  | zero =>
    intro n start hk _ hread hstrip hdec
    obtain ⟨m, rfl⟩ : ∃ m, n = m + 1 := ⟨n - 1, by omega⟩
    rw [Nat.add_zero] at hread
    simp [send_attempts, hread, hstrip, hdec]
  | succ j ih =>
    intro n start hk hfail hread hstrip hdec
    obtain ⟨m, rfl⟩ : ∃ m, n = m + 1 := ⟨n - 1, by omega⟩
    have h0 := hfail 0 (by omega)
    rw [Nat.add_zero] at h0
    have hsh : start + (j + 1) = (start + 1) + j := by omega
    rw [hsh] at hread
    have hrec := ih m (start + 1) (by omega)
      (fun i hi => by
        have hx := hfail (i + 1) (by omega)
        have he : start + 1 + i = start + (i + 1) := by omega
        rw [he]
        exact hx)
      hread hstrip hdec
    rcases h0 with h0 | h0 <;> simp [send_attempts, h0, hrec]

theorem send_attempts_crc_retry (dec : Decoder) (tr : Nat → AttemptResult)
    (resp : List Nat) (n start : Nat) (hread : tr start = .readOk resp)
    (hbad : strip_crc16 resp = .error .crcError) :
    send_attempts dec tr start (n + 1) =
      ((send_attempts dec tr (start + 1) n).1,
       (send_attempts dec tr (start + 1) n).2 + 1) := by
  simp [send_attempts, hread, hbad, PyError.isWeeWxIOErr]

theorem send_cmd_eq_loop (reading : String) (spec : CmdSpec)
    (globall address n : Nat) (tr : Nat → AttemptResult)
    (hcmd : commands reading = some spec) (ha : address ≤ 255)
    (hg : globall ≤ 255) (hc : spec.cmd ≤ 255) (hs : spec.sub ≤ 255) :
    send_cmd_with_crc reading globall address n tr =
      send_attempts spec.fn tr 0 n := by
  have hp : pack4B address spec.cmd spec.sub globall =
      .ok [address, spec.cmd, spec.sub, globall] := by
    unfold pack4B
    rw [if_pos ⟨ha, hc, hs, hg⟩]
  simp only [send_cmd_with_crc, hcmd, hp, pad8]

/-! ### C5: unknown reading -/

/-- C5: a reading name absent from `commands` makes `send_cmd_with_crc` fail
at once with the dict-lookup `KeyError` (modelling UnknownReadingError); the
attempt counter 0 records that the channel was never written or read, and
nothing is retried. -/
theorem claim5_unknown_reading (reading : String)
    (h : commands reading = none) :
    ∀ (globall address max_tries : Nat) (tr : Nat → AttemptResult),
      send_cmd_with_crc reading globall address max_tries tr =
        (.error .keyError, 0) := by
  intro globall address max_tries tr
  unfold send_cmd_with_crc
  rw [h]

set_option maxRecDepth 100000 in
theorem claim5_witness :
    send_cmd_with_crc "noSuchReading" 0 2 3 (fun _ => .writeFail) =
      (.error .keyError, 0) :=
  claim5_unknown_reading "noSuchReading" rfl 0 2 3 (fun _ => .writeFail)

/-! ### C4: retry accounting -/

/-- C4 (amended): with a registry reading and in-range parameters, (a) if the
channel raises `WeeWxIOError` on every attempt, `send_cmd_with_crc` with
`max_tries = n` performs exactly `n` attempts and then raises a
`WeeWxIOError` carrying the fixed message `unableMsg` — which names neither
the reading nor the attempt count; (b) if attempts `0..k-1` fail with channel
errors and attempt `k < n` reads a frame that passes the CRC check and
decodes to a ResponseTuple, exactly `k + 1` attempts occur and the decoded
tuple is returned. -/
theorem claim4_retry_accounting (reading : String) (spec : CmdSpec)
    (globall address n : Nat) (tr : Nat → AttemptResult)
    (hcmd : commands reading = some spec) (ha : address ≤ 255)
    (hg : globall ≤ 255) (hc : spec.cmd ≤ 255) (hs : spec.sub ≤ 255) :
    ((∀ i, i < n → IOFail (tr i)) →
      send_cmd_with_crc reading globall address n tr =
        (.error (.weeWxIOError unableMsg), n)) ∧
    (∀ (k : Nat) (resp payload : List Nat) (rt : ResponseTuple),
      k < n → (∀ i, i < k → IOFail (tr i)) → tr k = .readOk resp →
      strip_crc16 resp = .ok payload → decode spec.fn payload = .ok (some rt) →
      send_cmd_with_crc reading globall address n tr = (.ok (some rt), k + 1)) := by
  constructor
  · intro hfail
    rw [send_cmd_eq_loop reading spec globall address n tr hcmd ha hg hc hs]
    exact send_attempts_all_fail spec.fn tr n 0
      (fun i hi => by rw [Nat.zero_add]; exact hfail i hi)
  · intro k resp payload rt hk hfail hread hstrip hdec
    rw [send_cmd_eq_loop reading spec globall address n tr hcmd ha hg hc hs]
    exact send_attempts_success spec.fn tr resp payload (some rt) k n 0 hk
      (fun i hi => by rw [Nat.zero_add]; exact hfail i hi)
      (by rw [Nat.zero_add]; exact hread) hstrip hdec

set_option maxRecDepth 100000 in
/-- The exhaustion error of `send_cmd_with_crc` is one fixed value: two runs
with different readings and different attempt counts fail with the identical
error object, so the error names neither the reading nor the attempt count
(refuting the claim's ExhaustedRetriesError shape at a concrete input). -/
theorem claim4_counterexample :
    (send_cmd_with_crc "gridV" 0 2 3 (fun _ => .writeFail)).1 =
      (send_cmd_with_crc "serialNumber" 0 2 2 (fun _ => .writeFail)).1 ∧
    (send_cmd_with_crc "gridV" 0 2 3 (fun _ => .writeFail)).1 =
      .error (.weeWxIOError unableMsg) ∧
    (send_cmd_with_crc "gridV" 0 2 3 (fun _ => .writeFail)).2 = 3 ∧
    (send_cmd_with_crc "serialNumber" 0 2 2 (fun _ => .writeFail)).2 = 2 :=
  ⟨rfl, rfl, rfl, rfl⟩

/-- A channel that fails its write on attempt 0 and returns a well-formed
`dayEnergy` frame (payload `[0,0,0,0,1,0]`, value 256) on every later
attempt. -/
def trFailThenGood : Nat → AttemptResult := fun i =>
  match i with
  | 0 => .writeFail
  | _ => .readOk ([0, 0, 0, 0, 1, 0] ++ word2struct (crc16 [0, 0, 0, 0, 1, 0]))

set_option maxRecDepth 100000 in
theorem claim4_witness :
    send_cmd_with_crc "dayEnergy" 0 2 3 trFailThenGood =
      (.ok (some ⟨some 0, some 0, some (.int 256)⟩), 2) :=
  (claim4_retry_accounting "dayEnergy" ⟨78, 0, .int⟩ 0 2 3 trFailThenGood rfl
      (by norm_num) (by norm_num) (by norm_num) (by norm_num)).2
    1 ([0, 0, 0, 0, 1, 0] ++ word2struct (crc16 [0, 0, 0, 0, 1, 0]))
    [0, 0, 0, 0, 1, 0] ⟨some 0, some 0, some (.int 256)⟩
    (by norm_num)
    (fun i hi => by
      interval_cases i
      exact Or.inl rfl)
    rfl (strip_crc16_roundtrip [0, 0, 0, 0, 1, 0]) rfl

/-! ### C2: checksum failures and the retry loop -/

/-- C2 (amended): a response that fails the CRC check does not propagate out
of `send_cmd_with_crc`: `weewx.CRCError` is a subclass of
`weewx.WeeWxIOError`, so the `except weewx.WeeWxIOError` clause of the retry
loop catches it and the whole write/read exchange is retried, exactly as for
a transport I/O failure. -/
theorem claim2_checksum_is_retried (reading : String) (spec : CmdSpec)
    (globall address n : Nat) (tr : Nat → AttemptResult) (resp : List Nat)
    (hcmd : commands reading = some spec) (ha : address ≤ 255)
    (hg : globall ≤ 255) (hc : spec.cmd ≤ 255) (hs : spec.sub ≤ 255)
    (hread : tr 0 = .readOk resp)
    (hbad : strip_crc16 resp = .error .crcError) :
    send_cmd_with_crc reading globall address (n + 1) tr =
      ((send_attempts spec.fn tr 1 n).1,
       (send_attempts spec.fn tr 1 n).2 + 1) := by
  rw [send_cmd_eq_loop reading spec globall address (n + 1) tr hcmd ha hg hc hs]
  exact send_attempts_crc_retry spec.fn tr resp n 0 hread hbad

/-- A channel whose first read returns a corrupt frame (wrong CRC bytes) and
whose later reads return a well-formed `dayEnergy` frame. -/
def trBadThenGood : Nat → AttemptResult := fun i =>
  match i with
  | 0 => .readOk [0, 0, 0, 0, 1, 0, 0, 0]
  | _ => .readOk ([0, 0, 0, 0, 1, 0] ++ word2struct (crc16 [0, 0, 0, 0, 1, 0]))

set_option maxRecDepth 100000 in
/-- A concrete run refuting C2 as stated: the first response fails the CRC
check, yet `send_cmd_with_crc` does not propagate a checksum error — it
retries, succeeds on attempt 2 and returns the decoded tuple. -/
theorem claim2_counterexample :
    strip_crc16 [0, 0, 0, 0, 1, 0, 0, 0] = .error .crcError ∧
    send_cmd_with_crc "dayEnergy" 0 2 3 trBadThenGood =
      (.ok (some ⟨some 0, some 0, some (.int 256)⟩), 2) :=
  ⟨rfl, rfl⟩

set_option maxRecDepth 100000 in
theorem claim2_witness :
    send_cmd_with_crc "dayEnergy" 0 2 3 trBadThenGood =
      ((send_attempts Decoder.int trBadThenGood 1 2).1,
       (send_attempts Decoder.int trBadThenGood 1 2).2 + 1) :=
  claim2_checksum_is_retried "dayEnergy" ⟨78, 0, .int⟩ 0 2 2 trBadThenGood
    [0, 0, 0, 0, 1, 0, 0, 0] rfl (by norm_num) (by norm_num) (by norm_num)
    (by norm_num) rfl rfl

/-! ### C3: decoders that raise -/

set_option maxRecDepth 100000 in
/-- C3 fails on the code: the decoders catch only `(IndexError, TypeError)`.
`_dec_week_year` on payload `"\x00\x00XY17"` reaches `int('XY')`, which
raises an uncaught `ValueError`; `_dec_float` on a 5-byte payload reaches
`struct.unpack('!f', …)` with 3 bytes, which raises an uncaught
`struct.error`.  Neither returns the all-absent ResponseTuple. -/
theorem claim3_decoder_raises :
    _dec_week_year [0, 0, 88, 89, 49, 55] = .error .valueError ∧
    _dec_float [0, 0, 0, 0, 0] = .error .structError :=
  ⟨rfl, rfl⟩

/-! ### C8: the bytes on the wire -/

/-- C8: for a registry reading and in-range byte parameters, the frame
written per attempt is exactly
`[address, cmd, sub, globall, 0, 0, 0, 0]` followed by the CRC of those
8 bytes serialized low byte then high byte — 10 bytes in all. -/
theorem claim8_frame_layout (reading : String) (spec : CmdSpec)
    (globall address : Nat) (hcmd : commands reading = some spec)
    (ha : address ≤ 255) (hg : globall ≤ 255) (hc : spec.cmd ≤ 255)
    (hs : spec.sub ≤ 255) :
    data_with_crc reading globall address =
      .ok ([address, spec.cmd, spec.sub, globall, 0, 0, 0, 0] ++
        [crc16 [address, spec.cmd, spec.sub, globall, 0, 0, 0, 0] % 256,
         crc16 [address, spec.cmd, spec.sub, globall, 0, 0, 0, 0] / 256]) ∧
    ([address, spec.cmd, spec.sub, globall, 0, 0, 0, 0] ++
      [crc16 [address, spec.cmd, spec.sub, globall, 0, 0, 0, 0] % 256,
       crc16 [address, spec.cmd, spec.sub, globall, 0, 0, 0, 0] / 256]).length
      = 10 := by
  constructor
  · have hp : pack4B address spec.cmd spec.sub globall =
        .ok [address, spec.cmd, spec.sub, globall] := by
      unfold pack4B
      rw [if_pos ⟨ha, hc, hs, hg⟩]
    have hw : word2struct
        (crc16 [address, spec.cmd, spec.sub, globall, 0, 0, 0, 0]) =
        [crc16 [address, spec.cmd, spec.sub, globall, 0, 0, 0, 0] % 256,
         crc16 [address, spec.cmd, spec.sub, globall, 0, 0, 0, 0] / 256] := by
      unfold word2struct
      rw [and_mask8]
    simp only [data_with_crc, hcmd, hp, pad8, hw]
  · simp

set_option maxRecDepth 100000 in
theorem claim8_witness :
    data_with_crc "gridV" 1 2 =
      .ok ([2, 59, 1, 1, 0, 0, 0, 0] ++
        [crc16 [2, 59, 1, 1, 0, 0, 0, 0] % 256,
         crc16 [2, 59, 1, 1, 0, 0, 0, 0] / 256]) ∧
    ([2, 59, 1, 1, 0, 0, 0, 0] ++
      [crc16 [2, 59, 1, 1, 0, 0, 0, 0] % 256,
       crc16 [2, 59, 1, 1, 0, 0, 0, 0] / 256]).length = 10 :=
  claim8_frame_layout "gridV" ⟨59, 1, .float⟩ 1 2 rfl (by norm_num)
    (by norm_num) (by norm_num) (by norm_num)

/-! ### C9: the timestamp decoder -/

/-- C9: on any 6-byte payload, `_dec_ts` returns transmission state `b0`,
global state `b1`, and data
`b2·2²⁴ + b3·2¹⁶ + b4·2⁸ + b5 + 946648800` — the epoch offset constant of
the implementation. -/
theorem claim9_timestamp_decode :
    ∀ b0 b1 b2 b3 b4 b5 : Nat,
      _dec_ts [b0, b1, b2, b3, b4, b5] =
        .ok (some ⟨some b0, some b1,
          some (.int (((b2 * 2 ^ 24 + b3 * 2 ^ 16 + b4 * 2 ^ 8 + b5 : Nat) : Int)
            + 946648800))⟩) :=
  fun _ _ _ _ _ _ => rfl

/-! ### C10: pad never raises -/

/-- C10: `pad` never raises `DataFormatError` — its guard compares `size`
with the length of a pad string that is itself `size` characters long — and
when the input is longer than `size` the returned string is longer than
`size` rather than an error. -/
theorem claim10_pad_never_fails :
    ∀ (buf : List Nat) (size : Nat), ∃ l : List Nat,
      pad buf size = .ok l ∧ (buf.length > size → l.length > size) := by
  intro buf size
  unfold pad
  rw [if_neg (by rw [List.length_replicate]; omega)]
  refine ⟨_, rfl, ?_⟩
  intro hlen
  rw [List.length_append]
  omega

theorem claim10_witness :
    ∃ l : List Nat, pad [1, 2, 3] 2 = .ok l ∧ l.length > 2 := by
  obtain ⟨l, h1, h2⟩ := claim10_pad_never_fails [1, 2, 3] 2
  exact ⟨l, h1, h2 (by norm_num)⟩

end Aurora
